import Mathlib

set_option linter.unusedVariables false

/-!
# Verification of the gitmanager access views

Shallow embedding of `src/access/views.py`: the configuration-tree export
(`aplus_json` with its inner `children_recursion`), language resolution
(`_get_course_exercise_lang`), and the model/template file serving endpoints
(`exercise_model`, `exercise_template` with their inner `find_name`).

External collaborators living outside the snippet (the `util.export`
transforms, `config.exercise_config`, `config.exercise_data`, the Django
request machinery and the filesystem) are passed in as explicit parameters,
so every embedded function is a pure function of its inputs.
-/

namespace GitManager

/-- JSON-like values produced by the export. -/
inductive JValue where
  | str : String → JValue
  | num : Int → JValue
  | bool : Bool → JValue
  | arr : List JValue → JValue
  | obj : List (String × JValue) → JValue
deriving Repr

/-- A JSON object / Python dict, as an ordered association list. -/
abbrev Obj := List (String × JValue)

/-- Membership test for a key in a dict (`k in d` in Python). -/
def dictHasKey (d : Obj) (k : String) : Bool :=
  d.any (fun kv => kv.1 == k)

/-- Reading a key from a dict (`d[k]`, `None` when missing). -/
def dictLookup (d : Obj) (k : String) : Option JValue :=
  (d.find? (fun kv => kv.1 == k)).map (fun kv => kv.2)

/-- Python dict assignment `d[k] = v`: replace the binding in place when `k`
is already a key, otherwise append the new binding at the end. -/
def dictSet (d : Obj) (k : String) (v : JValue) : Obj :=
  if dictHasKey d k then
    d.map (fun kv => if kv.1 == k then (k, v) else kv)
  else d ++ [(k, v)]

/-- Pydantic `model.dict(exclude=ex, exclude_none=True)`: the model's fields
(values `Option JValue`, `none` encoding Python `None`) with the excluded
names removed and the `None`-valued fields dropped. -/
def dictExclude (fields : List (String × Option JValue)) (ex : List String) : Obj :=
  fields.filterMap (fun kv =>
    if kv.1 ∈ ex then none else kv.2.map (fun v => (kv.1, v)))

/-- Scan for the last `'/'`-separated segment: the accumulator holds the
segment read so far (reversed) and is reset at each separator. -/
def basenameAux (acc : List Char) : List Char → List Char
  | [] => acc.reverse
  | c :: cs => if c = '/' then basenameAux [] cs else basenameAux (c :: acc) cs

/-- Final path segment of a path: `path.split('/')[-1]` in Python (the
suffix after the last `'/'`, the whole string when there is none). -/
def basename (p : String) : String :=
  ⟨basenameAux [] p.data⟩

/-- `find_name` as defined inside `exercise_model` / `exercise_template`
(the two copies are identical).  Faithful to the source: the loop
`for path,name in models` rebinds `name`, shadowing the `name` argument,
and the comparison is against the enclosing request's `parameter`, so the
`name` argument is never consulted.  Pure: no filesystem parameter. -/
def find_name (parameter : String) (paths : List String) (name : String) : Option String :=
  let models := paths.map (fun path => (path, basename path))
  (models.find? (fun pn => pn.2 == parameter)).map (fun pn => pn.1)

/-! ## The configuration tree (`access.course` node classes) -/

/-- The closed set of node variants (`Module`, `Chapter`, `Exercise`, and
any other exercise type, the `else` branch of the dispatch). -/
inductive NodeType where
  | module | chapter | exercise | generic
deriving DecidableEq, Repr

/-- A tree node.  `key` is `o.key`; `hasConfig` is the truthiness of
`o.config` (only meaningful on `Exercise` nodes); `fields` are the node's
scalar pydantic fields other than `children` (value `none` = Python `None`);
`children` is the ordered child sequence. -/
inductive Node where
  | mk : String → NodeType → Bool → List (String × Option JValue) → List Node → Node

def Node.key : Node → String
  | .mk k _ _ _ _ => k

def Node.typ : Node → NodeType
  | .mk _ t _ _ _ => t

def Node.hasConfig : Node → Bool
  | .mk _ _ c _ _ => c

def Node.fields : Node → List (String × Option JValue)
  | .mk _ _ _ f _ => f

def Node.children : Node → List Node
  | .mk _ _ _ _ cs => cs

/-- The external collaborators used by `children_recursion`, passed in
explicitly: they live outside `src/access/views.py`. -/
structure ExternalFns where
  /-- Modelled from the spec: `config.exercise_config` (in the absent
  `access/config.py`) loads the exercise's full per-language data record,
  keyed by the exercise key and the context's resolved language. -/
  exerciseConfig : String → String → JValue
  /-- `export.exercise(request, config, exercise, of)` from `util.export`,
  already closed over the request and course config. -/
  exportExercise : JValue → Obj → Obj
  /-- `export.chapter(request, config, of)` from `util.export`. -/
  exportChapter : Obj → Obj

/-- The `isinstance` dispatch of `children_recursion`: an `Exercise` with a
truthy `config` goes through `export.exercise` on its per-language record, a
`Chapter` through `export.chapter`, anything else passes through. -/
def applyTransform (ext : ExternalFns) (lang key : String) (typ : NodeType)
    (hasConfig : Bool) (of : Obj) : Obj :=
  match typ, hasConfig with
  | .exercise, true => ext.exportExercise (ext.exerciseConfig key lang) of
  | .chapter, _ => ext.exportChapter of
  | _, _ => of

mutual

/-- The body of the `for o in parent.children` loop of `children_recursion`:
serialize the scalar fields (`o.dict(exclude={"children"}, exclude_none=True)`),
apply the per-type transform, then set `data["children"]` to the recursive
export of `o`'s own children. -/
def exportNode (ext : ExternalFns) (lang : String) : Node → Obj
  | .mk key typ hasConfig fields children =>
    let of := dictExclude fields ["children"]
    let data : Obj := applyTransform ext lang key typ hasConfig of
    dictSet data "children" (.arr ((exportChildList ext lang children).map .obj))

/-- The loop of `children_recursion` over a child list, preserving order. -/
def exportChildList (ext : ExternalFns) (lang : String) : List Node → List Obj
  | [] => []
  | o :: os => exportNode ext lang o :: exportChildList ext lang os

end

/-- `children_recursion(config, parent)`: one exported object per child of
`parent`, in declared sibling order. -/
def children_recursion (ext : ExternalFns) (lang : String) (parent : Node) : List Obj :=
  exportChildList ext lang parent.children

/-! ## Course configuration store (`access.config.CourseConfig`) -/

/-- Per-exercise data dict as returned by `config.exercise_data`:
`'model_files' in exercise` / `'template_files' in exercise` membership is
modelled by the `Option`s. -/
structure ExerciseData where
  model_files : Option (List String)
  template_files : Option (List String)
deriving DecidableEq, Repr

/-- Scalar course attributes plus the module tree (`config.data`). -/
structure CourseData where
  name : String
  fields : List (String × Option JValue)
  modules : List Node

/-- A loaded course configuration.  `exercise_data` and `exercise_list`
stand for the methods of the absent `access/config.py`; `lang` is
`config.lang`, the course's default language. -/
structure CourseConfig where
  key : String
  lang : String
  data : CourseData
  exercise_data : String → Option String → Option ExerciseData
  exercise_list : List Obj

/-- The in-memory store backing `CourseConfig.all()` / `CourseConfig.get`. -/
abbrev Store := List CourseConfig

/-- `CourseConfig.get(course_key)`: the cached tree for a known key, absent
(not an error) when unknown. -/
def CourseConfig.get (store : Store) (courseKey : String) : Option CourseConfig :=
  store.find? (fun c => c.key == courseKey)

/-- `CourseConfig.path_to(course_key, path)`: pure path join, no existence
check. -/
def CourseConfig.path_to (courseKey path : String) : String :=
  courseKey ++ "/" ++ path

/-- The filesystem, as a partial map from absolute path to content; `none`
means `FileNotFoundError` on `open`. -/
abbrev Fs := String → Option String

/-! ## Language resolution (`_get_course_exercise_lang`) -/

/-- Python truthiness of an optional string (`if lang_code:`): `None` and
the empty string are falsy. -/
def pyTruthy : Option String → Bool
  | none => false
  | some s => s ≠ ""

/-- `lang_code[:2]`: the first two characters of the string (all of it when
shorter). -/
def langTrunc (s : String) : String :=
  ⟨s.data.take 2⟩

/-- The Http404 outcomes a file request can end in: the bare `Http404()`
and the `Http404("... file missing")` raised when a declared file is absent
on disk (distinguishable internally, identical external status). -/
inductive FileError where
  | notFound
  | fileMissing
deriving DecidableEq, Repr

/-- External HTTP status of an error outcome. -/
def FileError.status : FileError → Nat
  | _ => 404

/-- The reassigned `lang_code` after the `if lang_code:` truncation. -/
def effLang (lang_code0 : Option String) : Option String :=
  if pyTruthy lang_code0 then lang_code0.map langTrunc else lang_code0

/-- `_get_course_exercise_lang(course_key, exercise_key, lang_code)`:
truncate a truthy language code to its first two characters, look up the
course and the exercise (each miss raises `Http404`), fall back to the
course default language only when the code is falsy, and return the
activated language with the course and exercise. -/
def _get_course_exercise_lang (store : Store) (courseKey exerciseKey : String)
    (lang_code0 : Option String) :
    Except FileError (CourseConfig × ExerciseData × String) :=
  let lang_code : Option String := effLang lang_code0
  match CourseConfig.get store courseKey with
  | none => .error .notFound
  | some config =>
    match config.exercise_data exerciseKey lang_code with
    | none => .error .notFound
    | some exercise =>
      let lang := if pyTruthy lang_code then lang_code.getD "" else config.lang
      .ok (config, exercise, lang)

/-! ## Single-file serving (`exercise_model`, `exercise_template`) -/

/-- `exercise_model(request, course_key, exercise_key, parameter)`:
resolve language/course/exercise, locate the basename in `model_files`
via `find_name`, read the file, 404 on every failure.  `if path:` is
Python-truthy, so an empty located path also 404s. -/
def exercise_model (store : Store) (fs : Fs) (courseKey exerciseKey parameter : String)
    (lang : Option String) : Except FileError String :=
  match _get_course_exercise_lang store courseKey exerciseKey lang with
  | .error e => .error e
  | .ok (course, exercise, _lang) =>
    let path : Option String :=
      match exercise.model_files with
      | some paths => find_name parameter paths parameter
      | none => none
    match path with
    | some p =>
      if p ≠ "" then
        match fs (CourseConfig.path_to course.key p) with
        | some content => .ok content
        | none => .error .fileMissing
      else .error .notFound
    | none => .error .notFound

/-- `exercise_template(request, course_key, exercise_key, parameter)`:
identical to `exercise_model` except that it consults `template_files`. -/
def exercise_template (store : Store) (fs : Fs) (courseKey exerciseKey parameter : String)
    (lang : Option String) : Except FileError String :=
  match _get_course_exercise_lang store courseKey exerciseKey lang with
  | .error e => .error e
  | .ok (course, exercise, _lang) =>
    let path : Option String :=
      match exercise.template_files with
      | some paths => find_name parameter paths parameter
      | none => none
    match path with
    | some p =>
      if p ≠ "" then
        match fs (CourseConfig.path_to course.key p) with
        | some content => .ok content
        | none => .error .fileMissing
      else .error .notFound
    | none => .error .notFound

/-! ## Full configuration export (`aplus_json`) -/

/-- `request.build_absolute_uri(reverse("build-log-json", args=(course_key,)))`:
an absolute URL computed from the request's base URL and the course key. -/
def build_log_url (baseUrl courseKey : String) : String :=
  baseUrl ++ "/build-log-json/" ++ courseKey

/-- The module loop of `aplus_json`: `mf = m.dict(exclude={"children"},
exclude_none=True)`, then `mf["children"] = children_recursion(config, m)`. -/
def moduleExport (ext : ExternalFns) (lang : String) (m : Node) : Obj :=
  dictSet (dictExclude m.fields ["children"]) "children"
    (.arr ((children_recursion ext lang m).map .obj))

/-- `aplus_json(request, course_key)`: 404 when the course key is unknown;
otherwise the course's scalar fields without `modules`/`static_dir` or
`None` values, a `modules` array built by the module loop, and a
`build_log_url` computed from the request base URL and the course key. -/
def aplus_json (store : Store) (ext : ExternalFns) (baseUrl lang courseKey : String) :
    Except FileError Obj :=
  match CourseConfig.get store courseKey with
  | none => .error .notFound
  | some config =>
    let data := dictExclude config.data.fields ["modules", "static_dir"]
    let modules := config.data.modules.map (moduleExport ext lang)
    let data := dictSet data "modules" (.arr (modules.map .obj))
    let data := dictSet data "build_log_url" (.str (build_log_url baseUrl courseKey))
    .ok data

/-! ## Request handlers with the store threaded explicitly

To state the frame property (no request-handling path mutates the cached
configuration tree) the handlers are written in state-passing style over the
store: every read of the store goes through `storeGet`/`storeAll`, which
return the store they were given, and the handler's first component is the
store after the request. -/

/-- A read of `CourseConfig.get` with the store threaded through. -/
def storeGet (courseKey : String) (s : Store) : Store × Option CourseConfig :=
  (s, CourseConfig.get s courseKey)

/-- A read of `CourseConfig.all()` with the store threaded through. -/
def storeAll (s : Store) : Store × List CourseConfig :=
  (s, s)

/-- `_filter_fields(dict_list, pick_fields)`: for each dictionary keep the
picked fields in the picked order; `entry[name]` raises on a missing key,
modelled by `Option`. -/
def _filter_fields (dict_list : List Obj) (pick_fields : List String) : Option (List Obj) :=
  dict_list.mapM (fun entry =>
    pick_fields.mapM (fun name => (dictLookup entry name).map (fun v => (name, v))))

/-- The AJAX branch of `index`: `{"ready": true, "courses": [{key, name}]}`. -/
def indexHandler (s : Store) : Store × Obj :=
  let (s, course_configs) := storeAll s
  (s, [("ready", .bool true),
       ("courses", .arr (course_configs.map (fun c =>
         .obj [("key", .str c.key), ("name", .str c.data.name)])))])

/-- The AJAX branch of `course`: 404 for an unknown key, otherwise
`{"ready": true, "course_name": ..., "exercises": filtered list}`. -/
def courseHandler (courseKey : String) (s : Store) : Store × Except FileError Obj :=
  let (s, found) := storeGet courseKey s
  match found with
  | none => (s, .error .notFound)
  | some course_config =>
    match _filter_fields course_config.exercise_list ["key", "title"] with
    | none => (s, .error .notFound)
    | some exercises =>
      (s, .ok [("ready", .bool true),
               ("course_name", .str course_config.data.name),
               ("exercises", .arr (exercises.map .obj))])

/-- `aplus_json` with the store threaded through. -/
def aplusJsonHandler (ext : ExternalFns) (baseUrl lang courseKey : String) (s : Store) :
    Store × Except FileError Obj :=
  let (s, found) := storeGet courseKey s
  match found with
  | none => (s, .error .notFound)
  | some config =>
    let data := dictExclude config.data.fields ["modules", "static_dir"]
    let modules := config.data.modules.map (moduleExport ext lang)
    let data := dictSet data "modules" (.arr (modules.map .obj))
    let data := dictSet data "build_log_url" (.str (build_log_url baseUrl courseKey))
    (s, .ok data)

/-- `exercise_model` with the store threaded through. -/
def exerciseModelHandler (fs : Fs) (courseKey exerciseKey parameter : String)
    (lang : Option String) (s : Store) : Store × Except FileError String :=
  (s, exercise_model s fs courseKey exerciseKey parameter lang)

/-- `exercise_template` with the store threaded through. -/
def exerciseTemplateHandler (fs : Fs) (courseKey exerciseKey parameter : String)
    (lang : Option String) (s : Store) : Store × Except FileError String :=
  (s, exercise_template s fs courseKey exerciseKey parameter lang)

/-! ## Concrete instances used by the witnesses -/

/-- A concrete exercise record for witness evaluation. -/
def demoExercise : ExerciseData where
  model_files := some ["files/a.py"]
  template_files := none

/-- A concrete course for witness evaluation: default language `fi`, one
module with one exercise. -/
def demoCourse : CourseConfig where
  key := "demo"
  lang := "fi"
  data := { name := "Demo"
            fields := [("name", some (.str "Demo")), ("static_dir", some (.str "static")),
                       ("modules", some (.str "shadowed")), ("x", none)]
            modules := [Node.mk "M1" .module false [("name", some (.str "M1"))]
                         [Node.mk "ex1" .exercise false [] []]] }
  exercise_data := fun ek _lang => if ek = "ex1" then some demoExercise else none
  exercise_list := [[("key", .str "ex1"), ("title", .str "Ex 1")]]

/-- A one-course store for witness evaluation. -/
def demoStore : Store := [demoCourse]

/-- A concrete filesystem holding exactly the declared model file. -/
def demoFs : Fs := fun p => if p = "demo/files/a.py" then some "print(1)" else none

/-- The empty filesystem. -/
def emptyFs : Fs := fun _ => none

/-- A concrete set of external transforms for witness evaluation. -/
def demoExt : ExternalFns where
  exerciseConfig := fun k l => .str (k ++ "|" ++ l)
  exportExercise := fun cfg of => ("exercise_cfg", cfg) :: of
  exportChapter := fun of => ("chapter_static", .str "url") :: of

/-- A leaf node used by witnesses. -/
def leafA : Node := .mk "a" .generic false [("title", some (.str "A"))] []

/-- A chapter leaf used by witnesses. -/
def leafB : Node := .mk "b" .chapter false [] []

/-! ## Dictionary and list lemmas -/

theorem find?_setMap (d : Obj) (k : String) (v : JValue) (h : dictHasKey d k = true) :
    (d.map (fun kv => if kv.1 == k then (k, v) else kv)).find? (fun kv => kv.1 == k)
      = some (k, v) := by
  induction d with
  | nil => simp [dictHasKey] at h
  | cons a t ih =>
    simp only [List.map_cons]
    by_cases ha : (a.1 == k) = true
    · rw [if_pos ha]
      exact List.find?_cons_of_pos _ (by simp)
    · rw [if_neg ha, List.find?_cons_of_neg _ (by simpa using ha)]
      have ht : dictHasKey t k = true := by
        simp only [dictHasKey, List.any_cons, ha, Bool.false_or] at h
        exact h
      exact ih ht

theorem find?_append_new (d : Obj) (k : String) (v : JValue) (h : dictHasKey d k = false) :
    (d ++ [(k, v)]).find? (fun kv => kv.1 == k) = some (k, v) := by
  induction d with
  | nil => exact List.find?_cons_of_pos _ (by simp)
  | cons a t ih =>
    simp only [dictHasKey, List.any_cons, Bool.or_eq_false_iff] at h
    rw [List.cons_append, List.find?_cons_of_neg _ (by simp [h.1])]
    exact ih (by simp [dictHasKey, h.2])

theorem dictLookup_dictSet_self (d : Obj) (k : String) (v : JValue) :
    dictLookup (dictSet d k v) k = some v := by
  unfold dictLookup
  by_cases h : dictHasKey d k = true
  · rw [dictSet, if_pos h, find?_setMap d k v h, Option.map_some']
  · rw [dictSet, if_neg h, find?_append_new d k v (by simpa using h), Option.map_some']

theorem find?_setMap_ne (d : Obj) (k : String) (v : JValue) (k' : String) (hne : k' ≠ k) :
    (d.map (fun kv => if kv.1 == k then (k, v) else kv)).find? (fun kv => kv.1 == k')
      = d.find? (fun kv => kv.1 == k') := by
  induction d with
  | nil => rfl
  | cons a t ih =>
    simp only [List.map_cons]
    by_cases ha : (a.1 == k) = true
    · rw [if_pos ha]
      have hak : a.1 = k := by simpa using ha
      have h1 : ((k, v).1 == k') = false := by simpa using Ne.symm hne
      have h2 : (a.1 == k') = false := by simpa [hak] using Ne.symm hne
      rw [List.find?_cons_of_neg _ (by simp [h1]), List.find?_cons_of_neg _ (by simp [h2])]
      exact ih
    · rw [if_neg ha]
      by_cases hk' : (a.1 == k') = true
      · have l1 : List.find? (fun kv => kv.1 == k')
            (a :: List.map (fun kv => if kv.1 == k then (k, v) else kv) t) = some a :=
          List.find?_cons_of_pos _ hk'
        have l2 : List.find? (fun kv => kv.1 == k') (a :: t) = some a :=
          List.find?_cons_of_pos _ hk'
        rw [l1, l2]
      · rw [List.find?_cons_of_neg _ (by simpa using hk'),
          List.find?_cons_of_neg _ (by simpa using hk')]
        exact ih

theorem dictLookup_dictSet_of_ne (d : Obj) (k : String) (v : JValue) (k' : String)
    (hne : k' ≠ k) : dictLookup (dictSet d k v) k' = dictLookup d k' := by
  unfold dictLookup dictSet
  by_cases h : dictHasKey d k = true
  · rw [if_pos h, find?_setMap_ne d k v k' hne]
  · rw [if_neg h, List.find?_append]
    have hnone : ([(k, v)].find? (fun kv => kv.1 == k')) = none := by
      rw [List.find?_cons_of_neg _ (by simpa using Ne.symm hne)]
      rfl
    rw [hnone, Option.or_none]

theorem mem_dictSet_of_ne (d : Obj) (k : String) (v : JValue) (k' : String) (v' : JValue)
    (hne : k' ≠ k) : (k', v') ∈ dictSet d k v ↔ (k', v') ∈ d := by
  by_cases h : dictHasKey d k = true
  · rw [dictSet, if_pos h, List.mem_map]
    constructor
    · rintro ⟨⟨k0, v0⟩, hmem, heq⟩
      by_cases hk0 : (k0 == k) = true
      · rw [if_pos hk0] at heq
        cases heq
        exact absurd rfl hne
      · rw [if_neg hk0] at heq
        exact heq ▸ hmem
    · intro hmem
      refine ⟨(k', v'), hmem, ?_⟩
      rw [if_neg (by simpa using hne)]
  · rw [dictSet, if_neg h, List.mem_append, List.mem_singleton]
    constructor
    · rintro (hmem | heq)
      · exact hmem
      · cases heq
        exact absurd rfl hne
    · exact fun hmem => Or.inl hmem

theorem mem_dictExclude (fields : List (String × Option JValue)) (ex : List String)
    (k : String) (v : JValue) :
    (k, v) ∈ dictExclude fields ex ↔ (k ∉ ex ∧ (k, some v) ∈ fields) := by
  unfold dictExclude
  rw [List.mem_filterMap]
  constructor
  · rintro ⟨⟨k0, ov⟩, hmem, heq⟩
    by_cases hk0 : k0 ∈ ex
    · simp [hk0] at heq
    · simp only [hk0, if_false] at heq
      cases ov with
      | none => simp at heq
      | some w =>
        simp only [Option.map_some'] at heq
        cases heq
        exact ⟨hk0, hmem⟩
  · rintro ⟨hk, hmem⟩
    exact ⟨(k, some v), hmem, by simp [hk]⟩

theorem exportChildList_eq_map (ext : ExternalFns) (lang : String) (cs : List Node) :
    exportChildList ext lang cs = cs.map (exportNode ext lang) := by
  induction cs with
  | nil => rfl
  | cons c cs ih => rw [exportChildList, List.map_cons, ih]

theorem find_name_eq_find? (parameter : String) (paths : List String) (name : String) :
    find_name parameter paths name = paths.find? (fun p => basename p == parameter) := by
  induction paths with
  | nil => rfl
  | cons p ps ih =>
    unfold find_name at ih ⊢
    simp only [List.map_cons, List.find?_cons]
    by_cases h : (basename p == parameter) = true
    · simp only [h, Option.map_some']
    · rw [Bool.not_eq_true] at h
      simp only [h]
      exact ih

theorem langTrunc_ne_empty (s : String) (h : s ≠ "") : langTrunc s ≠ "" := by
  intro hc
  apply h
  have hd : (langTrunc s).data = ("" : String).data := congrArg String.data hc
  simp only [langTrunc, List.take_eq_nil_iff] at hd
  rcases hd with hd | hd
  · exact absurd hd (by simp)
  · exact String.ext hd

theorem gcel_error_of_no_course (store : Store) (ck ek : String) (lq : Option String)
    (h : CourseConfig.get store ck = none) :
    _get_course_exercise_lang store ck ek lq = .error .notFound := by
  unfold _get_course_exercise_lang
  rw [h]

theorem gcel_error_of_no_exercise (store : Store) (ck ek : String) (lq : Option String)
    (config : CourseConfig) (hg : CourseConfig.get store ck = some config)
    (he : config.exercise_data ek (effLang lq) = none) :
    _get_course_exercise_lang store ck ek lq = .error .notFound := by
  unfold _get_course_exercise_lang
  rw [hg]
  simp only [he]

theorem exercise_model_of_gcel_error (store : Store) (fs : Fs) (ck ek param : String)
    (lq : Option String) (e : FileError)
    (h : _get_course_exercise_lang store ck ek lq = .error e) :
    exercise_model store fs ck ek param lq = .error e := by
  unfold exercise_model
  rw [h]

theorem exercise_template_of_gcel_error (store : Store) (fs : Fs) (ck ek param : String)
    (lq : Option String) (e : FileError)
    (h : _get_course_exercise_lang store ck ek lq = .error e) :
    exercise_template store fs ck ek param lq = .error e := by
  unfold exercise_template
  rw [h]

theorem exercise_model_of_gcel_ok (store : Store) (fs : Fs) (ck ek param : String)
    (lq : Option String) (c : CourseConfig) (e : ExerciseData) (l : String)
    (h : _get_course_exercise_lang store ck ek lq = .ok (c, e, l)) :
    exercise_model store fs ck ek param lq =
      (match (match e.model_files with
              | some paths => find_name param paths param
              | none => none : Option String) with
       | some p =>
          if p ≠ "" then
            match fs (CourseConfig.path_to c.key p) with
            | some content => .ok content
            | none => .error .fileMissing
          else .error .notFound
       | none => .error .notFound) := by
  unfold exercise_model
  rw [h]

theorem exercise_template_of_gcel_ok (store : Store) (fs : Fs) (ck ek param : String)
    (lq : Option String) (c : CourseConfig) (e : ExerciseData) (l : String)
    (h : _get_course_exercise_lang store ck ek lq = .ok (c, e, l)) :
    exercise_template store fs ck ek param lq =
      (match (match e.template_files with
              | some paths => find_name param paths param
              | none => none : Option String) with
       | some p =>
          if p ≠ "" then
            match fs (CourseConfig.path_to c.key p) with
            | some content => .ok content
            | none => .error .fileMissing
          else .error .notFound
       | none => .error .notFound) := by
  unfold exercise_template
  rw [h]

theorem aplusJsonHandler_fst (ext : ExternalFns) (baseUrl lang ck : String) (s : Store) :
    (aplusJsonHandler ext baseUrl lang ck s).1 = s := by
  unfold aplusJsonHandler storeGet
  cases CourseConfig.get s ck <;> rfl

theorem courseHandler_fst (ck : String) (s : Store) : (courseHandler ck s).1 = s := by
  unfold courseHandler storeGet
  cases CourseConfig.get s ck with
  | none => rfl
  | some config =>
    cases h : _filter_fields config.exercise_list ["key", "title"] with
    | none => simp [h]
    | some exercises => simp [h]

/-! ## Claims -/

/-- C1: `children_recursion` returns one JSON object per child of the
parent, in exactly the declared sibling order, whatever the mix of node
variants (the export is the elementwise map of the per-node export over
`parent.children`), and each output object's `children` field is the
recursive export of that child's own children. -/
theorem children_recursion_per_child_in_order (ext : ExternalFns) (lang key : String)
    (typ : NodeType) (hasConfig : Bool) (fields : List (String × Option JValue))
    (cs : List Node) :
    children_recursion ext lang (Node.mk key typ hasConfig fields cs)
        = cs.map (exportNode ext lang)
      ∧ ∀ n : Node, dictLookup (exportNode ext lang n) "children"
        = some (.arr ((children_recursion ext lang n).map .obj)) := by
  constructor
  · exact exportChildList_eq_map ext lang cs
  · intro n
    cases n with
    | mk k t hc f cs' =>
      rw [exportNode, dictLookup_dictSet_self]
      rfl

/-- C1 witness: a module with two children of different variants exports
exactly its two children in order, and a leaf exports an empty `children`
array. -/
theorem children_recursion_per_child_in_order_witness :
    children_recursion demoExt "en" (Node.mk "m" .module false [] [leafA, leafB])
        = [exportNode demoExt "en" leafA, exportNode demoExt "en" leafB]
      ∧ dictLookup (exportNode demoExt "en" leafA) "children" = some (.arr []) := by
  have h := children_recursion_per_child_in_order demoExt "en" "m" .module false []
    [leafA, leafB]
  exact ⟨h.1, by simpa using h.2 leafA⟩

/-- C2: each serialized child first gets its scalar fields with the
`children` field and all `None`-valued fields removed; then an Exercise
with a truthy config is replaced by the exercise transform applied to its
per-language data record (keyed by the node key and the resolved language),
a Chapter is replaced by the chapter transform, and every other variant
(Module, generic, Exercise without config) passes through unchanged apart
from the scalar serialization (the recursive `children` field is attached
in every case). -/
theorem children_export_type_dispatch (ext : ExternalFns) (lang key : String)
    (hasConfig : Bool) (fields : List (String × Option JValue)) (cs : List Node) :
    (∀ k v, ((k, v) ∈ dictExclude fields ["children"]) ↔
        (k ≠ "children" ∧ (k, some v) ∈ fields))
      ∧ exportNode ext lang (Node.mk key .exercise true fields cs)
        = dictSet (ext.exportExercise (ext.exerciseConfig key lang)
            (dictExclude fields ["children"])) "children"
            (.arr ((children_recursion ext lang (Node.mk key .exercise true fields cs)).map .obj))
      ∧ exportNode ext lang (Node.mk key .chapter hasConfig fields cs)
        = dictSet (ext.exportChapter (dictExclude fields ["children"])) "children"
            (.arr ((children_recursion ext lang (Node.mk key .chapter hasConfig fields cs)).map .obj))
      ∧ exportNode ext lang (Node.mk key .exercise false fields cs)
        = dictSet (dictExclude fields ["children"]) "children"
            (.arr ((children_recursion ext lang (Node.mk key .exercise false fields cs)).map .obj))
      ∧ exportNode ext lang (Node.mk key .module hasConfig fields cs)
        = dictSet (dictExclude fields ["children"]) "children"
            (.arr ((children_recursion ext lang (Node.mk key .module hasConfig fields cs)).map .obj))
      ∧ exportNode ext lang (Node.mk key .generic hasConfig fields cs)
        = dictSet (dictExclude fields ["children"]) "children"
            (.arr ((children_recursion ext lang (Node.mk key .generic hasConfig fields cs)).map .obj)) := by
  refine ⟨?_, rfl, rfl, rfl, rfl, rfl⟩
  intro k v
  rw [mem_dictExclude]
  simp [List.mem_singleton]

/-- C2 witness: the dispatch evaluated on concrete nodes: a configured
exercise gets the exercise transform, a chapter the chapter transform, a
`None`-valued field is dropped, `children` is excluded. -/
theorem children_export_type_dispatch_witness :
    ((("title", JValue.str "A") ∈
        dictExclude [("title", some (.str "A")), ("x", none)] ["children"]) ↔
      ("title" ≠ "children" ∧ ("title", some (JValue.str "A")) ∈
        [("title", some (JValue.str "A")), ("x", (none : Option JValue))]))
      ∧ exportNode demoExt "fi" (Node.mk "e1" .exercise true [("x", none)] [])
        = dictSet (demoExt.exportExercise (demoExt.exerciseConfig "e1" "fi")
            (dictExclude [("x", none)] ["children"])) "children" (.arr [])
      ∧ exportNode demoExt "fi" (Node.mk "c1" .chapter false [] [])
        = dictSet (demoExt.exportChapter (dictExclude [] ["children"])) "children" (.arr []) := by
  have h := children_export_type_dispatch demoExt "fi" "e1" false [("x", none)] []
  have h2 := children_export_type_dispatch demoExt "fi" "c1" false [] []
  refine ⟨?_, ?_, ?_⟩
  · have h3 := children_export_type_dispatch demoExt "fi" "t" false
      [("title", some (.str "A")), ("x", none)] []
    exact h3.1 "title" (.str "A")
  · simpa using h.2.1
  · simpa using h2.2.2.1

/-- C4: `find_name` returns the first entry in list order whose final path
segment (`basename`) equals the requested basename (`parameter`, the value
passed at both call sites), exactly and case-sensitively; it returns `none`
when no entry matches.  The definition takes no filesystem parameter: it
performs no filesystem access. -/
theorem find_name_first_basename_match (parameter : String) (paths : List String)
    (name : String) :
    find_name parameter paths name = paths.find? (fun p => basename p == parameter)
      ∧ (find_name parameter paths name = none ↔ ∀ p ∈ paths, basename p ≠ parameter)
      ∧ (∀ p, find_name parameter paths name = some p →
          p ∈ paths ∧ basename p = parameter) := by
  refine ⟨find_name_eq_find? parameter paths name, ?_, ?_⟩
  · rw [find_name_eq_find? parameter paths name, List.find?_eq_none]
    simp
  · intro p hp
    rw [find_name_eq_find? parameter paths name] at hp
    exact ⟨List.mem_of_find?_eq_some hp, by simpa using List.find?_some hp⟩

/-- C4 witness: locating `model.py` among declared paths returns the first
declared entry with that basename; a missing basename returns `none`. -/
theorem find_name_first_basename_match_witness :
    find_name "model.py" ["a/x.py", "dir/model.py", "e/model.py"] "model.py"
        = some "dir/model.py"
      ∧ find_name "missing.py" ["a/x.py", "dir/model.py"] "missing.py" = none := by
  have h1 := find_name_first_basename_match "model.py"
    ["a/x.py", "dir/model.py", "e/model.py"] "model.py"
  have h2 := find_name_first_basename_match "missing.py"
    ["a/x.py", "dir/model.py"] "missing.py"
  refine ⟨?_, ?_⟩
  · rw [h1.1]; decide
  · rw [h2.1]; decide

/-- C10: the result of `find_name` is independent of its `name` argument:
the source's loop rebinds `name`, shadowing the parameter, and compares
against the enclosing `parameter`, so `find_name paths x = find_name paths y`
for all `x`, `y`. -/
theorem find_name_ignores_name_argument (parameter : String) (paths : List String)
    (x y : String) :
    find_name parameter paths x = find_name parameter paths y := rfl

/-- C3: when `_get_course_exercise_lang` succeeds, a truthy requested
language code is returned truncated to its first two characters, whatever
the store's content in that language (the `exercise_data` field is
universally quantified, so no availability check can influence the result);
a falsy (absent or empty) requested code resolves to the course's
configured default language. -/
theorem lang_resolution_truncate_or_default (store : Store) (ck ek : String)
    (lq : Option String) (c : CourseConfig) (e : ExerciseData) (l : String)
    (h : _get_course_exercise_lang store ck ek lq = .ok (c, e, l)) :
    (∀ s, lq = some s → s ≠ "" → l = langTrunc s)
      ∧ (pyTruthy lq = false → l = c.lang) := by
  unfold _get_course_exercise_lang effLang at h
  constructor
  · rintro s rfl hs
    have ht : pyTruthy (some s) = true := by simp [pyTruthy, hs]
    have h2 : pyTruthy (some (langTrunc s)) = true := by
      simp [pyTruthy, langTrunc_ne_empty s hs]
    simp only [ht, if_true, Option.map_some'] at h
    split at h
    · exact absurd h (by simp)
    · split at h
      · exact absurd h (by simp)
      · simp only [h2, if_true, Option.getD_some] at h
        cases h
        rfl
  · intro hf
    simp only [hf, Bool.false_eq_true, if_false] at h
    split at h
    · exact absurd h (by simp)
    · split at h
      · exact absurd h (by simp)
      · cases h
        rfl

/-- C3 witness: resolving `en-GB` against the demo store yields `en`
(truncation, no availability check: the store has no English content) and
resolving an absent code yields the configured default `fi`. -/
theorem lang_resolution_truncate_or_default_witness :
    (_get_course_exercise_lang demoStore "demo" "ex1" (some "en-GB")
        = .ok (demoCourse, demoExercise, "en")
      ∧ "en" = langTrunc "en-GB")
      ∧ (_get_course_exercise_lang demoStore "demo" "ex1" none
        = .ok (demoCourse, demoExercise, "fi")
      ∧ "fi" = demoCourse.lang) := by
  have hres : _get_course_exercise_lang demoStore "demo" "ex1" (some "en-GB")
      = .ok (demoCourse, demoExercise, "en") := by
    unfold _get_course_exercise_lang effLang demoStore demoCourse CourseConfig.get
    simp [pyTruthy, langTrunc]
  have hres2 : _get_course_exercise_lang demoStore "demo" "ex1" none
      = .ok (demoCourse, demoExercise, "fi") := by
    unfold _get_course_exercise_lang effLang demoStore demoCourse CourseConfig.get
    simp [pyTruthy]
  have h1 := (lang_resolution_truncate_or_default demoStore "demo" "ex1" (some "en-GB")
    demoCourse demoExercise "en" hres).1 "en-GB" rfl (by decide)
  have h2 := (lang_resolution_truncate_or_default demoStore "demo" "ex1" none
    demoCourse demoExercise "fi" hres2).2 (by decide)
  exact ⟨⟨hres, h1⟩, ⟨hres2, h2⟩⟩

/-- C5: every resolution failure of a model/template file request is
terminal and surfaced as a 404: unknown course key, unknown exercise key,
absent declared file list, unmatched basename, and a matched entry missing
on disk — the last with the distinguishable internal cause `fileMissing`
but the identical external status.  The embedded handlers are straight-line
compositions, so no stage is ever retried. -/
theorem single_file_failures_terminal (store : Store) (fs : Fs) (ck ek param : String)
    (lq : Option String) (c : CourseConfig) (e : ExerciseData) (l : String) :
    (CourseConfig.get store ck = none →
        exercise_model store fs ck ek param lq = .error .notFound
        ∧ exercise_template store fs ck ek param lq = .error .notFound)
      ∧ (∀ config, CourseConfig.get store ck = some config →
          config.exercise_data ek (effLang lq) = none →
          exercise_model store fs ck ek param lq = .error .notFound
          ∧ exercise_template store fs ck ek param lq = .error .notFound)
      ∧ (_get_course_exercise_lang store ck ek lq = .ok (c, e, l) →
          (e.model_files = none →
            exercise_model store fs ck ek param lq = .error .notFound)
          ∧ (e.template_files = none →
            exercise_template store fs ck ek param lq = .error .notFound)
          ∧ (∀ paths, e.model_files = some paths → find_name param paths param = none →
            exercise_model store fs ck ek param lq = .error .notFound)
          ∧ (∀ paths, e.template_files = some paths → find_name param paths param = none →
            exercise_template store fs ck ek param lq = .error .notFound)
          ∧ (∀ paths p, e.model_files = some paths → find_name param paths param = some p →
            p ≠ "" → fs (CourseConfig.path_to c.key p) = none →
            exercise_model store fs ck ek param lq = .error .fileMissing)
          ∧ (∀ paths p, e.template_files = some paths → find_name param paths param = some p →
            p ≠ "" → fs (CourseConfig.path_to c.key p) = none →
            exercise_template store fs ck ek param lq = .error .fileMissing))
      ∧ (FileError.fileMissing ≠ FileError.notFound
        ∧ FileError.status .fileMissing = FileError.status .notFound) := by
  refine ⟨?_, ?_, ?_, by decide, rfl⟩
  · intro hg
    have h := gcel_error_of_no_course store ck ek lq hg
    exact ⟨exercise_model_of_gcel_error store fs ck ek param lq _ h,
      exercise_template_of_gcel_error store fs ck ek param lq _ h⟩
  · intro config hg he
    have h := gcel_error_of_no_exercise store ck ek lq config hg he
    exact ⟨exercise_model_of_gcel_error store fs ck ek param lq _ h,
      exercise_template_of_gcel_error store fs ck ek param lq _ h⟩
  · intro hok
    refine ⟨?_, ?_, ?_, ?_, ?_, ?_⟩
    · intro hm
      rw [exercise_model_of_gcel_ok store fs ck ek param lq c e l hok, hm]
    · intro hm
      rw [exercise_template_of_gcel_ok store fs ck ek param lq c e l hok, hm]
    · intro paths hm hf
      rw [exercise_model_of_gcel_ok store fs ck ek param lq c e l hok, hm]
      simp only [hf]
    · intro paths hm hf
      rw [exercise_template_of_gcel_ok store fs ck ek param lq c e l hok, hm]
      simp only [hf]
    · intro paths p hm hf hp hfs
      rw [exercise_model_of_gcel_ok store fs ck ek param lq c e l hok, hm]
      simp only [hf]
      rw [if_pos hp, hfs]
    · intro paths p hm hf hp hfs
      rw [exercise_template_of_gcel_ok store fs ck ek param lq c e l hok, hm]
      simp only [hf]
      rw [if_pos hp, hfs]

/-- C5 witness: on the demo store, an unknown course 404s, an exercise with
no template list 404s, an unmatched basename 404s, and the declared model
file absent from the (empty) filesystem yields the `fileMissing` 404. -/
theorem single_file_failures_terminal_witness :
    exercise_model demoStore demoFs "nope" "ex1" "a.py" none = .error .notFound
      ∧ exercise_template demoStore demoFs "demo" "ex1" "a.py" none = .error .notFound
      ∧ exercise_model demoStore demoFs "demo" "ex1" "b.py" none = .error .notFound
      ∧ exercise_model demoStore emptyFs "demo" "ex1" "a.py" none = .error .fileMissing
      ∧ FileError.status .fileMissing = FileError.status .notFound := by
  have hok : _get_course_exercise_lang demoStore "demo" "ex1" none
      = .ok (demoCourse, demoExercise, "fi") := by
    unfold _get_course_exercise_lang effLang demoStore demoCourse CourseConfig.get
    simp [pyTruthy]
  have hgnone : CourseConfig.get demoStore "nope" = none := by
    unfold demoStore demoCourse CourseConfig.get
    simp
  refine ⟨?_, ?_, ?_, ?_, ?_⟩
  · exact ((single_file_failures_terminal demoStore demoFs "nope" "ex1" "a.py" none
      demoCourse demoExercise "fi").1 hgnone).1
  · exact ((single_file_failures_terminal demoStore demoFs "demo" "ex1" "a.py" none
      demoCourse demoExercise "fi").2.2.1 hok).2.1 rfl
  · exact ((single_file_failures_terminal demoStore demoFs "demo" "ex1" "b.py" none
      demoCourse demoExercise "fi").2.2.1 hok).2.2.1 ["files/a.py"] rfl (by decide)
  · exact ((single_file_failures_terminal demoStore emptyFs "demo" "ex1" "a.py" none
      demoCourse demoExercise "fi").2.2.1 hok).2.2.2.2.1 ["files/a.py"] "files/a.py"
      rfl (by decide) (by decide) rfl
  · exact (single_file_failures_terminal demoStore demoFs "demo" "ex1" "a.py" none
      demoCourse demoExercise "fi").2.2.2.2

/-- C7: a file request naming an unknown course key or an unknown exercise
key returns the 404 without any filesystem access: the result is the same
constant for every filesystem (the `∀ fs` quantification), the store
reports the unknown course as `none` (absent, not an error), and the
handlers convert that absence to the 404. -/
theorem unknown_keys_notfound_without_fs (store : Store) (ck ek param : String)
    (lq : Option String) :
    (CourseConfig.get store ck = none →
        ∀ fs : Fs, exercise_model store fs ck ek param lq = .error .notFound
          ∧ exercise_template store fs ck ek param lq = .error .notFound)
      ∧ (∀ config, CourseConfig.get store ck = some config →
          config.exercise_data ek (effLang lq) = none →
          ∀ fs : Fs, exercise_model store fs ck ek param lq = .error .notFound
            ∧ exercise_template store fs ck ek param lq = .error .notFound) := by
  constructor
  · intro hg fs
    have h := gcel_error_of_no_course store ck ek lq hg
    exact ⟨exercise_model_of_gcel_error store fs ck ek param lq _ h,
      exercise_template_of_gcel_error store fs ck ek param lq _ h⟩
  · intro config hg he fs
    have h := gcel_error_of_no_exercise store ck ek lq config hg he
    exact ⟨exercise_model_of_gcel_error store fs ck ek param lq _ h,
      exercise_template_of_gcel_error store fs ck ek param lq _ h⟩

/-- C7 witness: the unknown course `nope` and the unknown exercise `nope`
yield the 404 on two different filesystems, with identical results. -/
theorem unknown_keys_notfound_without_fs_witness :
    exercise_model demoStore demoFs "nope" "ex1" "a.py" none = .error .notFound
      ∧ exercise_model demoStore emptyFs "nope" "ex1" "a.py" none = .error .notFound
      ∧ exercise_model demoStore demoFs "demo" "nope" "a.py" none = .error .notFound
      ∧ exercise_template demoStore emptyFs "demo" "nope" "a.py" none
        = .error .notFound := by
  have hgnone : CourseConfig.get demoStore "nope" = none := by
    unfold demoStore demoCourse CourseConfig.get
    simp
  have hgsome : CourseConfig.get demoStore "demo" = some demoCourse := by
    unfold demoStore demoCourse CourseConfig.get
    simp
  have hex : demoCourse.exercise_data "nope" (effLang none) = none := by
    unfold demoCourse
    simp
  have h := unknown_keys_notfound_without_fs demoStore "nope" "ex1" "a.py" none
  have h2 := unknown_keys_notfound_without_fs demoStore "demo" "nope" "a.py" none
  exact ⟨(h.1 hgnone demoFs).1, (h.1 hgnone emptyFs).1,
    (h2.2 demoCourse hgsome hex demoFs).1, (h2.2 demoCourse hgsome hex emptyFs).2⟩

/-- C6: for a known course key, `aplus_json` returns a top-level object
whose `build_log_url` is computed from the request base URL and the course
key, whose `modules` array is the per-module export (scalar dict plus
recursive `children`), and whose remaining bindings are exactly the
course's scalar fields minus `modules`, minus `static_dir`, minus
`None`-valued fields; for an unknown course key it 404s. -/
theorem aplus_json_full_export (store : Store) (ext : ExternalFns) (baseUrl lang ck : String) :
    (CourseConfig.get store ck = none →
        aplus_json store ext baseUrl lang ck = .error .notFound)
      ∧ (∀ config, CourseConfig.get store ck = some config →
        ∃ d, aplus_json store ext baseUrl lang ck = .ok d
          ∧ dictLookup d "build_log_url" = some (.str (build_log_url baseUrl ck))
          ∧ dictLookup d "modules"
            = some (.arr ((config.data.modules.map (moduleExport ext lang)).map .obj))
          ∧ (∀ k v, k ≠ "modules" → k ≠ "build_log_url" →
              ((k, v) ∈ d ↔ (k ≠ "static_dir" ∧ (k, some v) ∈ config.data.fields)))) := by
  constructor
  · intro hg
    unfold aplus_json
    rw [hg]
  · intro config hg
    refine ⟨dictSet (dictSet (dictExclude config.data.fields ["modules", "static_dir"])
        "modules" (.arr ((config.data.modules.map (moduleExport ext lang)).map .obj)))
        "build_log_url" (.str (build_log_url baseUrl ck)), ?_, ?_, ?_, ?_⟩
    · unfold aplus_json
      rw [hg]
    · exact dictLookup_dictSet_self _ _ _
    · rw [dictLookup_dictSet_of_ne _ _ _ _ (by decide)]
      exact dictLookup_dictSet_self _ _ _
    · intro k v hk1 hk2
      rw [mem_dictSet_of_ne _ _ _ _ _ hk2, mem_dictSet_of_ne _ _ _ _ _ hk1, mem_dictExclude]
      constructor
      · rintro ⟨hnotin, hmem⟩
        exact ⟨fun hc => hnotin (by simp [hc]), hmem⟩
      · rintro ⟨hsd, hmem⟩
        refine ⟨?_, hmem⟩
        intro hc
        rcases (by simpa using hc : k = "modules" ∨ k = "static_dir") with h | h
        · exact hk1 h
        · exact hsd h

/-- C6 witness: the demo course's full export evaluated (the `static_dir`
and `None`-valued fields are gone, the shadowing `modules` field is
replaced by the module array, the build-log URL is attached), and an
unknown key 404s. -/
theorem aplus_json_full_export_witness :
    aplus_json demoStore demoExt "https://x" "fi" "nope" = .error .notFound
      ∧ aplus_json demoStore demoExt "https://x" "fi" "demo"
        = .ok [("name", .str "Demo"),
            ("modules", .arr [.obj [("name", .str "M1"),
              ("children", .arr [.obj [("children", .arr [])]])]]),
            ("build_log_url", .str "https://x/build-log-json/demo")] := by
  have hgnone : CourseConfig.get demoStore "nope" = none := by
    unfold demoStore demoCourse CourseConfig.get
    simp
  exact ⟨(aplus_json_full_export demoStore demoExt "https://x" "fi" "nope").1 hgnone, rfl⟩

/-- C8: for a fixed (store, transforms, base URL, language, course key),
two consecutive invocations of the export handler — the second run on the
store state left by the first — produce identical output; in particular
the `modules` arrays (and with them all nested `children` arrays) of the
two runs are equal.  The embedding threads no other state, so no hidden
counter or timestamp can enter the node data. -/
theorem aplus_json_deterministic (ext : ExternalFns) (baseUrl lang ck : String)
    (s : Store) (d d' : Obj)
    (h1 : (aplusJsonHandler ext baseUrl lang ck s).2 = .ok d)
    (h2 : (aplusJsonHandler ext baseUrl lang ck
      ((aplusJsonHandler ext baseUrl lang ck s).1)).2 = .ok d') :
    (aplusJsonHandler ext baseUrl lang ck ((aplusJsonHandler ext baseUrl lang ck s).1)).2
      = (aplusJsonHandler ext baseUrl lang ck s).2
    ∧ d = d'
    ∧ dictLookup d "modules" = dictLookup d' "modules" := by
  have hfst := aplusJsonHandler_fst ext baseUrl lang ck s
  rw [hfst] at h2
  rw [h1] at h2
  cases h2
  exact ⟨by rw [hfst], rfl, rfl⟩

/-- C8 witness: two consecutive demo-course exports produce the same
concrete object. -/
theorem aplus_json_deterministic_witness :
    (aplusJsonHandler demoExt "https://x" "fi" "demo"
        ((aplusJsonHandler demoExt "https://x" "fi" "demo" demoStore).1)).2
      = (aplusJsonHandler demoExt "https://x" "fi" "demo" demoStore).2
    ∧ ([("name", JValue.str "Demo"),
        ("modules", JValue.arr [.obj [("name", .str "M1"),
          ("children", .arr [.obj [("children", .arr [])]])]]),
        ("build_log_url", JValue.str "https://x/build-log-json/demo")] : Obj)
      = [("name", JValue.str "Demo"),
        ("modules", JValue.arr [.obj [("name", .str "M1"),
          ("children", .arr [.obj [("children", .arr [])]])]]),
        ("build_log_url", JValue.str "https://x/build-log-json/demo")] := by
  have h := aplus_json_deterministic demoExt "https://x" "fi" "demo" demoStore
    [("name", JValue.str "Demo"),
      ("modules", JValue.arr [.obj [("name", .str "M1"),
        ("children", .arr [.obj [("children", .arr [])]])]]),
      ("build_log_url", JValue.str "https://x/build-log-json/demo")]
    [("name", JValue.str "Demo"),
      ("modules", JValue.arr [.obj [("name", .str "M1"),
        ("children", .arr [.obj [("children", .arr [])]])]]),
      ("build_log_url", JValue.str "https://x/build-log-json/demo")]
    rfl rfl
  exact ⟨h.1, h.2.1⟩

/-- C9: every request handler (course listing, exercise listing, full
export, model/template file fetch), written in state-passing style over the
store of cached course trees, returns the store unchanged: no
request-handling path mutates the loaded configuration, every serialization
building fresh objects. -/
theorem request_handlers_preserve_store (ext : ExternalFns) (fs : Fs)
    (baseUrl lang ck ek param : String) (lq : Option String) (s : Store) :
    (indexHandler s).1 = s
      ∧ (courseHandler ck s).1 = s
      ∧ (aplusJsonHandler ext baseUrl lang ck s).1 = s
      ∧ (exerciseModelHandler fs ck ek param lq s).1 = s
      ∧ (exerciseTemplateHandler fs ck ek param lq s).1 = s :=
  ⟨rfl, courseHandler_fst ck s, aplusJsonHandler_fst ext baseUrl lang ck s, rfl, rfl⟩

end GitManager
